import Mathlib

/-!
Verification of the Task-Alarm scheduling core.

The development shallowly embeds the alarm application's scheduling logic:

* `src/utils/timeCalculations.ts` (`parseTimeString`, `getNextWeekdayOccurrence`,
  `getNextAlarmTime`, `isValidTimeString`);
* `src/context/AlarmContext.tsx` (`addAlarm`, `updateAlarm`, `toggleAlarm`);
* `App.tsx` notification listeners (`onSnooze`, `onDismiss`);
* `src/services/SchedulerService.ts` (`scheduleAlarm`, `cancelAlarm`,
  `rescheduleAllAlarms`);
* `src/services/NotificationService.ts` (the foreground notification handler
  with its 30-second tolerance check).

JavaScript `Date` values are modelled as natural numbers counting seconds since
a local-midnight epoch whose day 0 is a Thursday (as for the Unix epoch), so
`getDay` is `(t / 86400 + 4) % 7`.  All alarm instants constructed by the code
have zero seconds (`setHours(h, m, 0, 0)`), so second granularity is exact for
every comparison the code performs.
-/

namespace TaskAlarm

/-- The `WeekDay` union type from `src/types/alarm.types.ts`. -/
inductive WeekDay where
  | Mon | Tue | Wed | Thu | Fri | Sat | Sun
deriving DecidableEq, Repr

/-- `WEEKDAY_TO_NUMBER` from `src/constants/alarm.constants.ts` (0 = Sunday). -/
def weekdayToNumber : WeekDay → Nat
  | .Sun => 0
  | .Mon => 1
  | .Tue => 2
  | .Wed => 3
  | .Thu => 4
  | .Fri => 5
  | .Sat => 6

/-- `NUMBER_TO_WEEKDAY` from `src/constants/alarm.constants.ts`.  The source
record only has keys 0..6 and is only ever queried with `Date.getDay()`
results, which lie in `[0, 6]`; the catch-all branch is never reached. -/
def numberToWeekday : Nat → WeekDay
  | 0 => .Sun
  | 1 => .Mon
  | 2 => .Tue
  | 3 => .Wed
  | 4 => .Thu
  | 5 => .Fri
  | 6 => .Sat
  | _ => .Sun

/-- Seconds per day. -/
def secPerDay : Nat := 86400

/-- `Date.getDay()`: day of week of instant `t`, with 0 = Sunday.  Day 0 of
the model epoch is a Thursday (= 4), as for the Unix epoch. -/
def getDay (t : Nat) : Nat := (t / secPerDay + 4) % 7

/-- `d.setHours(h, m, 0, 0)` applied to a copy of instant `t`: same calendar
day as `t`, at `h:m:00`. -/
def setHMS0 (t : Nat) (h m : Nat) : Nat := t / secPerDay * secPerDay + h * 3600 + m * 60

/-- `d = new Date(t); d.setDate(d.getDate() + k); d.setHours(h, m, 0, 0)`:
`k` days after `t`'s calendar day, at `h:m:00`. -/
def mkDayTime (t : Nat) (k h m : Nat) : Nat :=
  (t / secPerDay + k) * secPerDay + h * 3600 + m * 60

/-- Value of the longest leading digit run of `cs`, or `none` when `cs` does
not start with a digit (the `NaN` outcome of `parseInt`). -/
def digitsPrefixVal (cs : List Char) : Option Nat :=
  let ds := cs.takeWhile (·.isDigit)
  if ds.isEmpty then none
  else some (ds.foldl (fun n c => 10 * n + (c.toNat - 48)) 0)

/-- JavaScript `parseInt(s, 10)`: skip leading whitespace, read an optional
sign and then the longest digit prefix, ignoring any trailing characters;
`none` models `NaN`. -/
def jsParseInt (cs : List Char) : Option Int :=
  let cs := cs.dropWhile (fun c => c == ' ' || c == '\t' || c == '\n' || c == '\r')
  match cs with
  | '-' :: rest => (digitsPrefixVal rest).map (fun n => -(n : Int))
  | '+' :: rest => (digitsPrefixVal rest).map (fun n => (n : Int))
  | _ => (digitsPrefixVal cs).map (fun n => (n : Int))

/-- JavaScript `s.split(':')` on a character list.  Splitting the empty string
yields `[""]`, as in JavaScript. -/
def splitOnColon : List Char → List (List Char)
  | [] => [[]]
  | c :: rest =>
    let r := splitOnColon rest
    if c = ':' then [] :: r
    else (c :: r.headD []) :: r.tail

/-- `parseTimeString` from `src/utils/timeCalculations.ts`, on the character
list of the input.  `const [hoursStr, minutesStr] = time.split(':')` takes the
first two components (`split` always returns at least one; a missing second
component is `undefined`, and `parseInt(undefined, 10)` is `NaN`).  The throw
on `NaN` or out-of-range hour/minute is modelled as `none`. -/
def parseTimeChars (cs : List Char) : Option (Nat × Nat) :=
  let parts := splitOnColon cs
  let hours? := jsParseInt (parts.headD [])
  let minutes? := parts[1]?.bind jsParseInt
  match hours?, minutes? with
  | some hours, some minutes =>
    if hours < 0 || hours > 23 || minutes < 0 || minutes > 59 then none
    else some (hours.toNat, minutes.toNat)
  | _, _ => none

/-- `parseTimeString` on a `String` input. -/
def parseTimeString (time : String) : Option (Nat × Nat) :=
  parseTimeChars time.data

/-- `isValidTimeString` from `src/utils/timeCalculations.ts`: `true` exactly
when `parseTimeString` does not throw. -/
def isValidTimeString (time : String) : Bool :=
  (parseTimeString time).isSome

/-- A string literally of the form `HH:mm`: two digits, a colon, two digits.
Used to state what shape `parseTimeString` does NOT enforce. -/
def isHHmmShape (time : String) : Bool :=
  match time.data with
  | [h1, h2, c, m1, m2] => h1.isDigit && h2.isDigit && c == ':' && m1.isDigit && m2.isDigit
  | _ => false

/-- Body of `getNextWeekdayOccurrence` from `src/utils/timeCalculations.ts`
after the time string has been parsed to `(h, m)`.  `daysUntil` is computed as
in the source: `0` leads to the today/next-week check, a negative difference
is wrapped by `+ 7`. -/
def nextWeekdayOccurrenceAt (day : WeekDay) (h m now : Nat) : Nat :=
  let targetDayNumber := weekdayToNumber day
  let currentDayNumber := getDay now
  if targetDayNumber = currentDayNumber then
    let alarmTime := setHMS0 now h m
    if now < alarmTime then alarmTime
    else mkDayTime now 7 h m
  else
    let daysUntil : Int := (targetDayNumber : Int) - (currentDayNumber : Int)
    let daysUntil := if daysUntil < 0 then daysUntil + 7 else daysUntil
    mkDayTime now daysUntil.toNat h m

/-- `getNextWeekdayOccurrence(day, time)`; the implicit `new Date()` is the
explicit parameter `now`, and the throw of `parseTimeString` is `none`. -/
def getNextWeekdayOccurrence (day : WeekDay) (time : String) (now : Nat) : Option Nat :=
  (parseTimeString time).map fun p => nextWeekdayOccurrenceAt day p.1 p.2 now

/-- The `for (const day of repeats)` loop of `getNextAlarmTime`: fold the
occurrences keeping the strictly earliest (first occurrence wins ties). -/
def nextOccurrenceLoop (f : WeekDay → Nat) (days : List WeekDay) (acc : Option Nat) : Option Nat :=
  match days with
  | [] => acc
  | d :: ds =>
    let occurrence := f d
    let acc := match acc with
      | none => some occurrence
      | some best => if occurrence < best then some occurrence else some best
    nextOccurrenceLoop f ds acc

/-- The alarm record (`Alarm` in `src/types/alarm.types.ts`).  `repeats` is
the repeat set, `notificationId` the pending Notifier token. -/
structure Alarm where
  id : String
  label : String
  description : Option String
  time : String
  repeats : List WeekDay
  isEnabled : Bool
  soundUri : String
  snoozeEnabled : Bool
  snoozeDuration : Nat
  notificationId : Option String
  createdAt : String
  updatedAt : String
deriving DecidableEq, Repr

/-- `getNextAlarmTime(alarm)` from `src/utils/timeCalculations.ts` with the
implicit `new Date()` made explicit as `now`.  Throws (`none`) when the time
string is invalid.  Inside the repeat loop the source calls
`getNextWeekdayOccurrence(day, time)`, which re-parses the same string with
the same result `(h, m)`. -/
def getNextAlarmTime (a : Alarm) (now : Nat) : Option Nat :=
  match parseTimeString a.time with
  | none => none
  | some (h, m) =>
    if a.repeats.isEmpty then
      let alarmTime := setHMS0 now h m
      if now < alarmTime then some alarmTime
      else some (alarmTime + secPerDay)
    else
      let currentDayName := numberToWeekday (getDay now)
      if a.repeats.contains currentDayName && now < setHMS0 now h m then
        some (setHMS0 now h m)
      else
        nextOccurrenceLoop (fun d => nextWeekdayOccurrenceAt d h m now) a.repeats none

/-- `AlarmInput` (`src/types/alarm.types.ts`): an alarm without the
system-generated `id`, `createdAt`, `updatedAt`, `notificationId`. -/
structure AlarmInput where
  label : String
  description : Option String
  time : String
  repeats : List WeekDay
  isEnabled : Bool
  soundUri : String
  snoozeEnabled : Bool
  snoozeDuration : Nat
deriving DecidableEq, Repr

/-- The alarm object `addAlarm` builds from its input before scheduling. -/
def mkAlarm (input : AlarmInput) (freshId nowIso : String) : Alarm :=
  { id := freshId
    label := input.label
    description := input.description
    time := input.time
    repeats := input.repeats
    isEnabled := input.isEnabled
    soundUri := input.soundUri
    snoozeEnabled := input.snoozeEnabled
    snoozeDuration := input.snoozeDuration
    notificationId := none
    createdAt := nowIso
    updatedAt := nowIso }

/-- A `Partial<Alarm>` update object.  `none` models an absent key; for
`description` and `notificationId` the inner `Option` is the field's own
optionality, so `some none` models a key explicitly present with value
`undefined` (which the object spread in `updateAlarm` does copy over). -/
structure AlarmUpdate where
  label : Option String := none
  description : Option (Option String) := none
  time : Option String := none
  repeats : Option (List WeekDay) := none
  isEnabled : Option Bool := none
  soundUri : Option String := none
  snoozeEnabled : Option Bool := none
  snoozeDuration : Option Nat := none
  notificationId : Option (Option String) := none
deriving DecidableEq, Repr

/-- `const updatedAlarm = { ...existingAlarm, ...updates, id, createdAt, updatedAt }`
from `updateAlarm` in `src/context/AlarmContext.tsx`. -/
def applyUpdates (a : Alarm) (u : AlarmUpdate) (nowIso : String) : Alarm :=
  { id := a.id
    label := u.label.getD a.label
    description := u.description.getD a.description
    time := u.time.getD a.time
    repeats := u.repeats.getD a.repeats
    isEnabled := u.isEnabled.getD a.isEnabled
    soundUri := u.soundUri.getD a.soundUri
    snoozeEnabled := u.snoozeEnabled.getD a.snoozeEnabled
    snoozeDuration := u.snoozeDuration.getD a.snoozeDuration
    notificationId := u.notificationId.getD a.notificationId
    createdAt := a.createdAt
    updatedAt := nowIso }

/-- The `needsReschedule` test of `updateAlarm`: the update object has a
`time`, `repeats`, `isEnabled` or `soundUri` key (`!== undefined`). -/
def needsReschedule (u : AlarmUpdate) : Bool :=
  u.time.isSome || u.repeats.isSome || u.isEnabled.isSome || u.soundUri.isSome

/-- Combined application state: the React context alarm list, the
AsyncStorage contents, the set of outstanding expo notification
registrations as `(notificationId, alarmId)` pairs, and the context's
`error` state. -/
structure AppState where
  alarms : List Alarm
  stored : List Alarm
  live : List (String × String)
  lastError : Option String
deriving DecidableEq, Repr

/-- `SchedulerService.scheduleAlarm`: computes the next trigger (throwing if
the time string is invalid) and then asks expo-notifications for a one-shot
registration.  The platform outcome of `scheduleNotificationAsync` is
injected as `notifier` (`.ok token` or a thrown error); every failure is
caught and rethrown as `Failed to schedule alarm`. -/
def scheduleAlarmCall (a : Alarm) (now : Nat) (notifier : Except String String) :
    Except String String :=
  match getNextAlarmTime a now with
  | none => .error "Failed to schedule alarm"
  | some _ =>
    match notifier with
    | .error _ => .error "Failed to schedule alarm"
    | .ok token => .ok token

/-- Effect of `Notifications.cancelScheduledNotificationAsync id` on the set
of outstanding registrations (idempotent, succeeds on unknown ids). -/
def cancelLive (live : List (String × String)) (notificationId : String) :
    List (String × String) :=
  live.filter (fun p => p.1 != notificationId)

/-- `setAlarms(prev => prev.map(a => a.id === id ? updatedAlarm : a))`. -/
def replaceAlarm (l : List Alarm) (id : String) (a2 : Alarm) : List Alarm :=
  l.map (fun a => if a.id == id then a2 else a)

/-- `StorageService.updateAlarm`: replace the first alarm with the given id,
or fail (`none`) when the id is not in storage. -/
def replaceFirstById (l : List Alarm) (id : String) (a2 : Alarm) : Option (List Alarm) :=
  match l with
  | [] => none
  | a :: rest =>
    if a.id == id then some (a2 :: rest)
    else (replaceFirstById rest id a2).map (fun r => a :: r)

/-- `addAlarm` from `src/context/AlarmContext.tsx`.  `freshId` and `nowIso`
stand for the generated id and `new Date().toISOString()`; `now` is the
clock used by the scheduler; `notifier` is the platform scheduling outcome.
On a scheduling failure the inner catch throws
`Failed to schedule alarm notification`, so `StorageService.addAlarm` and
`setAlarms` are never reached; the outer catch records
`Failed to add alarm` and rethrows. -/
def addAlarm (s : AppState) (input : AlarmInput) (freshId nowIso : String) (now : Nat)
    (notifier : Except String String) : AppState × Except String Unit :=
  let newAlarm := mkAlarm input freshId nowIso
  if newAlarm.isEnabled then
    match scheduleAlarmCall newAlarm now notifier with
    | .error _ =>
      ({ s with lastError := some "Failed to add alarm" },
        .error "Failed to schedule alarm notification")
    | .ok token =>
      let scheduled := { newAlarm with notificationId := some token }
      ({ alarms := s.alarms ++ [scheduled]
         stored := s.stored ++ [scheduled]
         live := s.live ++ [(token, scheduled.id)]
         lastError := none }, .ok ())
  else
    ({ s with alarms := s.alarms ++ [newAlarm]
              stored := s.stored ++ [newAlarm]
              lastError := none }, .ok ())

/-- The cancel/schedule calls `updateAlarm` makes, in order. -/
inductive SchedAction where
  | cancel (notificationId : String)
  | schedule (notificationId : String)
deriving DecidableEq, Repr

/-- `updateAlarm` from `src/context/AlarmContext.tsx`.  Returns the state,
the Notifier actions performed in order, and the thrown error if any.  When
`needsReschedule` holds, the existing notification (if present) is cancelled
first; a new one is registered only when the updated alarm is enabled.  When
it does not hold, the merged record (including a `notificationId` taken
verbatim from the update object, if that key is present) is written without
touching the Notifier. -/
def updateAlarm (s : AppState) (id : String) (u : AlarmUpdate) (nowIso : String) (now : Nat)
    (notifier : Except String String) : AppState × List SchedAction × Except String Unit :=
  match s.alarms.find? (fun a => a.id == id) with
  | none => ({ s with lastError := some "Failed to update alarm" }, [], .error "Alarm not found")
  | some existingAlarm =>
    let updatedAlarm := applyUpdates existingAlarm u nowIso
    if needsReschedule u then
      let live1 := match existingAlarm.notificationId with
        | some t => cancelLive s.live t
        | none => s.live
      let log1 : List SchedAction := match existingAlarm.notificationId with
        | some t => [.cancel t]
        | none => []
      if updatedAlarm.isEnabled then
        match scheduleAlarmCall updatedAlarm now notifier with
        | .error e =>
          ({ s with live := live1, lastError := some "Failed to update alarm" }, log1, .error e)
        | .ok token =>
          let finalAlarm := { updatedAlarm with notificationId := some token }
          match replaceFirstById s.stored id finalAlarm with
          | none =>
            ({ s with live := live1 ++ [(token, id)]
                      lastError := some "Failed to update alarm" },
              log1 ++ [.schedule token], .error "Failed to update alarm in storage")
          | some stored1 =>
            ({ alarms := replaceAlarm s.alarms id finalAlarm
               stored := stored1
               live := live1 ++ [(token, id)]
               lastError := none }, log1 ++ [.schedule token], .ok ())
      else
        let finalAlarm := { updatedAlarm with notificationId := none }
        match replaceFirstById s.stored id finalAlarm with
        | none =>
          ({ s with live := live1, lastError := some "Failed to update alarm" }, log1,
            .error "Failed to update alarm in storage")
        | some stored1 =>
          ({ alarms := replaceAlarm s.alarms id finalAlarm
             stored := stored1
             live := live1
             lastError := none }, log1, .ok ())
    else
      match replaceFirstById s.stored id updatedAlarm with
      | none =>
        ({ s with lastError := some "Failed to update alarm" }, [],
          .error "Failed to update alarm in storage")
      | some stored1 =>
        ({ alarms := replaceAlarm s.alarms id updatedAlarm
           stored := stored1
           live := s.live
           lastError := none }, [], .ok ())

/-- `toggleAlarm` from `src/context/AlarmContext.tsx`: flip `isEnabled` via
`updateAlarm`; its own catch overwrites the error message and rethrows. -/
def toggleAlarm (s : AppState) (id : String) (nowIso : String) (now : Nat)
    (notifier : Except String String) : AppState × List SchedAction × Except String Unit :=
  match s.alarms.find? (fun a => a.id == id) with
  | none => ({ s with lastError := some "Failed to toggle alarm" }, [], .error "Alarm not found")
  | some alarm =>
    let r := updateAlarm s id { isEnabled := some (!alarm.isEnabled) } nowIso now notifier
    match r.2.2 with
    | .ok _ => r
    | .error e => ({ r.1 with lastError := some "Failed to toggle alarm" }, r.2.1, .error e)

/-- The `onSnooze` listener from `App.tsx`.  `notifier` is the platform
outcome of the snooze registration (`SchedulerService.scheduleSnooze`
schedules at `now + duration` and never consults the time string).  All
errors are caught and swallowed by the handler. -/
def onSnooze (s : AppState) (alarmId : String) (nowIso : String) (now : Nat)
    (notifier : Except String String) : AppState :=
  match s.alarms.find? (fun a => a.id == alarmId) with
  | none => s
  | some alarm =>
    if !alarm.snoozeEnabled then s
    else
      let live1 := match alarm.notificationId with
        | some t => cancelLive s.live t
        | none => s.live
      match notifier with
      | .error _ => { s with live := live1 }
      | .ok token =>
        let s1 : AppState := { s with live := live1 ++ [(token, alarmId)] }
        (updateAlarm s1 alarmId { notificationId := some (some token) } nowIso now notifier).1

/-- The `onDismiss` listener from `App.tsx`: cancel the outstanding
notification, then either reschedule the next repeat occurrence (repeating,
enabled alarms) or disable a one-time alarm.  All errors are caught and
swallowed by the handler. -/
def onDismiss (s : AppState) (alarmId : String) (nowIso : String) (now : Nat)
    (notifier : Except String String) : AppState :=
  match s.alarms.find? (fun a => a.id == alarmId) with
  | none => s
  | some alarm =>
    let live1 := match alarm.notificationId with
      | some t => cancelLive s.live t
      | none => s.live
    let s1 : AppState := { s with live := live1 }
    if alarm.repeats.isEmpty then
      (updateAlarm s1 alarmId { isEnabled := some false, notificationId := some none }
        nowIso now notifier).1
    else if !alarm.isEnabled then s1
    else
      match scheduleAlarmCall alarm now notifier with
      | .error _ => s1
      | .ok token =>
        let s2 : AppState := { s1 with live := s1.live ++ [(token, alarmId)] }
        (updateAlarm s2 alarmId { notificationId := some (some token) } nowIso now notifier).1

/-- JavaScript `Map.set` on an association list: overwrite in place if the
key exists, else append. -/
def mapSet (m : List (String × String)) (k v : String) : List (String × String) :=
  if m.any (fun p => p.1 == k) then m.map (fun p => if p.1 == k then (k, v) else p)
  else m ++ [(k, v)]

/-- `SchedulerService.rescheduleAllAlarms`: filter the enabled alarms and
schedule each, catching and skipping individual failures.  `notifier` gives
each alarm's platform outcome. -/
def rescheduleAllAlarms (alarms : List Alarm) (now : Nat)
    (notifier : Alarm → Except String String) : List (String × String) :=
  (alarms.filter (fun a => a.isEnabled)).foldl
    (fun results alarm =>
      match scheduleAlarmCall alarm now (notifier alarm) with
      | .ok notificationId => mapSet results alarm.id notificationId
      | .error _ => results)
    []

/-- The 30-second tolerance of the foreground notification handler in
`NotificationService.initialize` (`src/services/NotificationService.ts`). -/
def TOLERANCE_SECONDS : Int := 30

/-- The `handleNotification` decision of `NotificationService`: prefer
`data.scheduledAt`, fall back to `trigger.date`; block the notification
(return all-false display flags) exactly when the scheduled instant is more
than `TOLERANCE_SECONDS` in the future of the invocation time `now`. -/
def handleNotificationShould (dataScheduledAt triggerDate : Option Nat) (now : Nat) : Bool :=
  match dataScheduledAt.orElse (fun _ => triggerDate) with
  | none => true
  | some scheduledTime =>
    if (scheduledTime : Int) - (now : Int) > TOLERANCE_SECONDS then false else true

/-- The notification handler as a transition on application state: it only
computes display flags and performs no alarm-state mutation whatsoever
(`handleNotification` in the source touches no store, no context state and
no notification registrations). -/
def handleNotificationStep (s : AppState) (dataScheduledAt triggerDate : Option Nat)
    (now : Nat) : AppState × Bool :=
  (s, handleNotificationShould dataScheduledAt triggerDate now)

/-- Registrations outstanding for a given alarm id. -/
def liveFor (live : List (String × String)) (alarmId : String) : List (String × String) :=
  live.filter (fun p => p.2 == alarmId)

/-- The §3 invariant: a pending trigger is recorded on the alarm exactly
when the alarm is enabled. -/
def TokenIffEnabled (l : List Alarm) : Prop :=
  ∀ a ∈ l, a.notificationId.isSome = a.isEnabled

instance : DecidablePred TokenIffEnabled := fun l =>
  List.decidableBAll _ l

instance {ε α : Type} [DecidableEq ε] [DecidableEq α] : DecidableEq (Except ε α) := fun x y =>
  match x, y with
  | .error e1, .error e2 =>
    if h : e1 = e2 then .isTrue (by rw [h]) else .isFalse (fun hc => h (Except.error.inj hc))
  | .ok a1, .ok a2 =>
    if h : a1 = a2 then .isTrue (by rw [h]) else .isFalse (fun hc => h (Except.ok.inj hc))
  | .error _, .ok _ => .isFalse (fun hc => Except.noConfusion hc)
  | .ok _, .error _ => .isFalse (fun hc => Except.noConfusion hc)

/-- Sample alarm creation input (enabled, valid time). -/
def sampleInput : AlarmInput :=
  { label := "Wake", description := none, time := "07:30", repeats := []
    isEnabled := true, soundUri := "chimes", snoozeEnabled := true, snoozeDuration := 10 }

/-- The empty application state. -/
def emptyState : AppState := { alarms := [], stored := [], live := [], lastError := none }

/-- Scenario alarm: daily 07:30, one-time. -/
def alarmDaily0730 : Alarm :=
  { id := "alarm-1", label := "Morning", description := none, time := "07:30", repeats := []
    isEnabled := true, soundUri := "chimes", snoozeEnabled := true, snoozeDuration := 10
    notificationId := none, createdAt := "", updatedAt := "" }

/-- Scenario alarm: 09:00 repeating on Mondays. -/
def alarmMonday0900 : Alarm :=
  { alarmDaily0730 with id := "alarm-2", time := "09:00", repeats := [.Mon] }

/-- Scenario alarm: 09:00 repeating on Mondays and Wednesdays. -/
def alarmMonWed0900 : Alarm :=
  { alarmDaily0730 with id := "alarm-3", time := "09:00", repeats := [.Mon, .Wed] }

/-- The armed sample alarm (pending token `n1`). -/
def armedAlarm : Alarm :=
  { mkAlarm sampleInput "alarm-1" "2025-10-20T10:00:00.000Z" with notificationId := some "n1" }

/-- A state holding the armed sample alarm, consistent with its Notifier
registration. -/
def armedState : AppState :=
  { alarms := [armedAlarm], stored := [armedAlarm], live := [("n1", "alarm-1")],
    lastError := none }

/-- An update object whose only key is `notificationId: undefined`. -/
def tokenOnlyClear : AlarmUpdate := { notificationId := some none }

/-- An update object whose only key is `snoozeDuration: 5`. -/
def snoozeOnlyUpdate : AlarmUpdate := { snoozeDuration := some 5 }

/-- An edit that only changes the alarm time to 08:00. -/
def editTime0800 : AlarmUpdate := { time := some "08:00" }

/-- An edit that only changes the alarm time to 09:00. -/
def editTime0900 : AlarmUpdate := { time := some "09:00" }

/-- Enabled demo alarm the platform schedules successfully. -/
def demoOk : Alarm := { armedAlarm with id := "a-ok", notificationId := none }

/-- Enabled demo alarm whose platform scheduling call fails. -/
def demoBad : Alarm := { armedAlarm with id := "a-bad", notificationId := none }

/-- Disabled demo alarm. -/
def demoDisabled : Alarm :=
  { armedAlarm with id := "a-off", isEnabled := false, notificationId := none }

/-- Demo platform outcomes: fail exactly for `demoBad`. -/
def demoNotifier : Alarm → Except String String := fun a1 =>
  if a1.id == "a-bad" then .error "platform failure" else .ok ("token-" ++ a1.id)

theorem parseTimeChars_bounds {cs : List Char} {h m : Nat}
    (hp : parseTimeChars cs = some (h, m)) : h ≤ 23 ∧ m ≤ 59 := by
  unfold parseTimeChars at hp
  simp only [] at hp
  split at hp
  · simp at hp
    omega
  · simp at hp

theorem setHMS0_div (t h m : Nat) (hh : h ≤ 23) (hm : m ≤ 59) :
    setHMS0 t h m / secPerDay = t / secPerDay := by
  unfold setHMS0 secPerDay
  omega

theorem getDay_setHMS0 (t h m : Nat) (hh : h ≤ 23) (hm : m ≤ 59) :
    getDay (setHMS0 t h m) = getDay t := by
  unfold getDay
  rw [setHMS0_div t h m hh hm]

theorem getDay_mkDayTime (t k h m : Nat) (hh : h ≤ 23) (hm : m ≤ 59) :
    getDay (mkDayTime t k h m) = (t / secPerDay + k + 4) % 7 := by
  unfold getDay mkDayTime secPerDay
  omega

theorem weekdayToNumber_lt (d : WeekDay) : weekdayToNumber d < 7 := by
  cases d <;> decide

theorem numberToWeekday_weekdayToNumber (d : WeekDay) :
    numberToWeekday (weekdayToNumber d) = d := by
  cases d <;> rfl

theorem getDay_nextWeekdayOccurrenceAt (day : WeekDay) (h m now : Nat)
    (hh : h ≤ 23) (hm : m ≤ 59) :
    getDay (nextWeekdayOccurrenceAt day h m now) = weekdayToNumber day := by
  have ht := weekdayToNumber_lt day
  unfold nextWeekdayOccurrenceAt
  simp only []
  split
  · case isTrue heq =>
    split
    · rw [getDay_setHMS0 now h m hh hm, heq]
    · rw [getDay_mkDayTime now 7 h m hh hm, heq]
      unfold getDay
      omega
  · case isFalse hne =>
    split <;>
    · rw [getDay_mkDayTime _ _ _ _ hh hm]
      unfold getDay at *
      omega

theorem nextOccurrenceLoop_mem (f : WeekDay → Nat) (days : List WeekDay) :
    ∀ (acc : Option Nat) (r : Nat), nextOccurrenceLoop f days acc = some r →
      (∃ d ∈ days, r = f d) ∨ acc = some r := by
  induction days with
  | nil =>
    intro acc r hr
    exact Or.inr hr
  | cons d ds ih =>
    intro acc r hr
    cases acc with
    | none =>
      rw [show nextOccurrenceLoop f (d :: ds) none = nextOccurrenceLoop f ds (some (f d)) from
        rfl] at hr
      rcases ih _ r hr with ⟨d0, hd0, rfl⟩ | hacc
      · exact Or.inl ⟨d0, List.mem_cons_of_mem d hd0, rfl⟩
      · simp only [Option.some.injEq] at hacc
        exact Or.inl ⟨d, List.mem_cons_self d ds, hacc.symm⟩
    | some best =>
      rw [show nextOccurrenceLoop f (d :: ds) (some best) =
        nextOccurrenceLoop f ds (if f d < best then some (f d) else some best) from rfl] at hr
      by_cases hlt : f d < best
      · rw [if_pos hlt] at hr
        rcases ih _ r hr with ⟨d0, hd0, rfl⟩ | hacc
        · exact Or.inl ⟨d0, List.mem_cons_of_mem d hd0, rfl⟩
        · simp only [Option.some.injEq] at hacc
          exact Or.inl ⟨d, List.mem_cons_self d ds, hacc.symm⟩
      · rw [if_neg hlt] at hr
        rcases ih _ r hr with ⟨d0, hd0, rfl⟩ | hacc
        · exact Or.inl ⟨d0, List.mem_cons_of_mem d hd0, rfl⟩
        · exact Or.inr hacc

theorem nextOccurrenceLoop_isSome (f : WeekDay → Nat) (days : List WeekDay) :
    ∀ (acc : Option Nat), acc.isSome = true → (nextOccurrenceLoop f days acc).isSome = true := by
  induction days with
  | nil => intro acc hacc; exact hacc
  | cons d ds ih =>
    intro acc hacc
    cases acc with
    | none => simp at hacc
    | some best =>
      rw [show nextOccurrenceLoop f (d :: ds) (some best) =
        nextOccurrenceLoop f ds (if f d < best then some (f d) else some best) from rfl]
      by_cases hlt : f d < best
      · rw [if_pos hlt]
        exact ih _ rfl
      · rw [if_neg hlt]
        exact ih _ rfl

theorem contains_mem {l : List WeekDay} {d : WeekDay} (h : l.contains d = true) : d ∈ l := by
  simpa using h

theorem parseTimeChars_eq (cs : List Char) :
    parseTimeChars cs =
      match jsParseInt ((splitOnColon cs).headD []), (splitOnColon cs)[1]?.bind jsParseInt with
      | some hours, some minutes =>
        if hours < 0 || hours > 23 || minutes < 0 || minutes > 59 then none
        else some (hours.toNat, minutes.toNat)
      | _, _ => none := rfl

theorem scheduleAlarmCall_error (a : Alarm) (now : Nat) (e : String) :
    scheduleAlarmCall a now (.error e) = .error "Failed to schedule alarm" := by
  unfold scheduleAlarmCall
  cases getNextAlarmTime a now <;> rfl

theorem scheduleAlarmCall_ok_inj {a : Alarm} {now : Nat} {t token : String}
    (h : scheduleAlarmCall a now (.ok t) = .ok token) : token = t := by
  unfold scheduleAlarmCall at h
  split at h
  · exact absurd h (by simp)
  · exact (Except.ok.inj h).symm

theorem find?_id_eq {l : List Alarm} {id : String} {a : Alarm}
    (h : l.find? (fun x => x.id == id) = some a) : a.id = id := by
  have := List.find?_some h
  simpa using this

theorem replaceAlarm_inv {l : List Alarm} {id : String} {b : Alarm}
    (hinv : TokenIffEnabled l) (hb : b.notificationId.isSome = b.isEnabled) :
    TokenIffEnabled (replaceAlarm l id b) := by
  intro a ha
  unfold replaceAlarm at ha
  rcases List.mem_map.mp ha with ⟨c, hc, rfl⟩
  by_cases hid : (c.id == id) = true
  · rw [if_pos hid]
    exact hb
  · rw [if_neg hid]
    exact hinv c hc

theorem updateAlarm_preserves_inv (s : AppState) (id : String) (u : AlarmUpdate)
    (nowIso : String) (now : Nat) (notifier : Except String String)
    (hinv : TokenIffEnabled s.alarms)
    (hcond : needsReschedule u = true ∨
      ∀ a, s.alarms.find? (fun x => x.id == id) = some a →
        (applyUpdates a u nowIso).notificationId.isSome = (applyUpdates a u nowIso).isEnabled) :
    TokenIffEnabled (updateAlarm s id u nowIso now notifier).1.alarms := by
  unfold updateAlarm
  cases hfind : s.alarms.find? (fun x => x.id == id) with
  | none => exact hinv
  | some a =>
    simp only []
    split
    · case isTrue hns =>
      split
      · case isTrue hen =>
        split
        · exact hinv
        · split
          · exact hinv
          · exact replaceAlarm_inv hinv hen.symm
      · case isFalse hen =>
        split
        · exact hinv
        · exact replaceAlarm_inv hinv (Bool.not_eq_true _ |>.mp hen).symm
    · case isFalse hns =>
      rcases hcond with hc | hc
      · exact absurd hc hns
      split
      · exact hinv
      · exact replaceAlarm_inv hinv (hc a hfind)

theorem addAlarm_preserves_inv (s : AppState) (input : AlarmInput)
    (freshId nowIso : String) (now : Nat) (notifier : Except String String)
    (hinv : TokenIffEnabled s.alarms) :
    TokenIffEnabled (addAlarm s input freshId nowIso now notifier).1.alarms := by
  unfold addAlarm
  simp only []
  split
  · case isTrue hen =>
    split
    · exact hinv
    · case h_2 token heq =>
      intro a ha
      rcases List.mem_append.mp ha with hmem | hmem
      · exact hinv a hmem
      · rcases List.mem_singleton.mp hmem with rfl
        exact hen.symm
  · case isFalse hen =>
    intro a ha
    rcases List.mem_append.mp ha with hmem | hmem
    · exact hinv a hmem
    · rcases List.mem_singleton.mp hmem with rfl
      exact ((Bool.not_eq_true _).mp hen).symm

theorem toggleAlarm_preserves_inv (s : AppState) (id : String)
    (nowIso : String) (now : Nat) (notifier : Except String String)
    (hinv : TokenIffEnabled s.alarms) :
    TokenIffEnabled (toggleAlarm s id nowIso now notifier).1.alarms := by
  unfold toggleAlarm
  cases hfind : s.alarms.find? (fun x => x.id == id) with
  | none => exact hinv
  | some alarm =>
    simp only []
    have hup := updateAlarm_preserves_inv s id { isEnabled := some (!alarm.isEnabled) }
      nowIso now notifier hinv (Or.inl rfl)
    split
    · exact hup
    · exact hup

theorem onSnooze_preserves_inv (s : AppState) (alarmId : String)
    (nowIso : String) (now : Nat) (notifier : Except String String)
    (hinv : TokenIffEnabled s.alarms)
    (henall : ∀ a ∈ s.alarms, a.id = alarmId → a.isEnabled = true) :
    TokenIffEnabled (onSnooze s alarmId nowIso now notifier).alarms := by
  unfold onSnooze
  cases hfind : s.alarms.find? (fun x => x.id == alarmId) with
  | none => exact hinv
  | some alarm =>
    simp only []
    split
    · exact hinv
    · split
      · exact hinv
      · case h_2 token heq =>
        refine updateAlarm_preserves_inv _ alarmId _ nowIso now _ hinv (Or.inr ?_)
        intro a2 hfind2
        have hmem : a2 ∈ s.alarms := List.mem_of_find?_eq_some hfind2
        have hid : a2.id = alarmId := find?_id_eq hfind2
        have hen2 : a2.isEnabled = true := henall a2 hmem hid
        simp [applyUpdates, hen2]

theorem onDismiss_preserves_inv (s : AppState) (alarmId : String)
    (nowIso : String) (now : Nat) (notifier : Except String String)
    (hinv : TokenIffEnabled s.alarms) :
    TokenIffEnabled (onDismiss s alarmId nowIso now notifier).alarms := by
  unfold onDismiss
  cases hfind : s.alarms.find? (fun x => x.id == alarmId) with
  | none => exact hinv
  | some alarm =>
    simp only []
    split
    · exact updateAlarm_preserves_inv _ alarmId _ nowIso now notifier hinv (Or.inl rfl)
    · split
      · exact hinv
      · case isFalse hdis =>
        split
        · exact hinv
        · case h_2 token heq =>
          refine updateAlarm_preserves_inv _ alarmId _ nowIso now _ hinv (Or.inr ?_)
          intro a2 hfind2
          have hfind2s : s.alarms.find? (fun x => x.id == alarmId) = some a2 := hfind2
          rw [hfind] at hfind2s
          obtain rfl := Option.some.inj hfind2s
          have hen2 : alarm.isEnabled = true := by
            revert hdis; cases alarm.isEnabled <;> simp
          simp [applyUpdates, hen2]

theorem find?_replaceAlarm {l : List Alarm} {id : String} {a : Alarm} (b : Alarm)
    (hfind : l.find? (fun x => x.id == id) = some a) (hb : (b.id == id) = true) :
    (replaceAlarm l id b).find? (fun x => x.id == id) = some b := by
  induction l with
  | nil => simp at hfind
  | cons c cs ih =>
    unfold replaceAlarm
    by_cases hc : (c.id == id) = true
    · simp only [List.map_cons, if_pos hc]
      simp [List.find?_cons, hb]
    · simp only [List.map_cons, if_neg hc]
      simp only [List.find?_cons, hc] at hfind ⊢
      exact ih hfind

theorem liveFor_append (l1 l2 : List (String × String)) (id : String) :
    liveFor (l1 ++ l2) id = liveFor l1 id ++ liveFor l2 id := by
  unfold liveFor
  exact List.filter_append _ _

theorem liveFor_cancelLive (l : List (String × String)) (t id : String) :
    liveFor (cancelLive l t) id = cancelLive (liveFor l id) t := by
  unfold liveFor cancelLive
  rw [List.filter_filter, List.filter_filter]
  apply List.filter_congr
  intro p _
  exact Bool.and_comm _ _

theorem mem_cancelLive_ne {l : List (String × String)} {t : String} {p : String × String}
    (h : p ∈ cancelLive l t) : p.1 ≠ t := by
  have := (List.mem_filter.mp h).2
  simpa using this

theorem mem_of_cancelLive {l : List (String × String)} {t : String} {p : String × String}
    (h : p ∈ cancelLive l t) : p ∈ l :=
  (List.mem_filter.mp h).1

theorem updateAlarm_resched_ok_enabled (s : AppState) (id : String) (u : AlarmUpdate)
    (nowIso : String) (now : Nat) (t : String) (a : Alarm)
    (hfind : s.alarms.find? (fun x => x.id == id) = some a)
    (hns : needsReschedule u = true)
    (hen : (applyUpdates a u nowIso).isEnabled = true)
    (hok : (updateAlarm s id u nowIso now (.ok t)).2.2 = .ok ()) :
    (updateAlarm s id u nowIso now (.ok t)).1.live =
      (match a.notificationId with
        | some t0 => cancelLive s.live t0
        | none => s.live) ++ [(t, id)]
    ∧ (updateAlarm s id u nowIso now (.ok t)).1.alarms.find? (fun x => x.id == id) =
      some { applyUpdates a u nowIso with notificationId := some t } := by
  have hbid : ((applyUpdates a u nowIso).id == id) = true := by
    have := List.find?_some hfind
    simpa [applyUpdates] using this
  unfold updateAlarm at hok ⊢
  rw [hfind] at hok ⊢
  simp only [hns, if_true] at hok ⊢
  rw [if_pos hen] at hok ⊢
  cases hsc : scheduleAlarmCall (applyUpdates a u nowIso) now (.ok t) with
  | error e =>
    rw [hsc] at hok
    simp at hok
  | ok token =>
    rw [hsc] at hok
    rw [scheduleAlarmCall_ok_inj hsc] at hok ⊢
    dsimp only [] at hok ⊢
    cases hst : replaceFirstById s.stored id
        { applyUpdates a u nowIso with notificationId := some t } with
    | none =>
      rw [hst] at hok
      simp at hok
    | some stored1 => exact ⟨rfl, find?_replaceAlarm _ hfind hbid⟩

theorem updateAlarm_resched_ok_disabled (s : AppState) (id : String) (u : AlarmUpdate)
    (nowIso : String) (now : Nat) (t : String) (a : Alarm)
    (hfind : s.alarms.find? (fun x => x.id == id) = some a)
    (hns : needsReschedule u = true)
    (hen : (applyUpdates a u nowIso).isEnabled = false)
    (hok : (updateAlarm s id u nowIso now (.ok t)).2.2 = .ok ()) :
    (updateAlarm s id u nowIso now (.ok t)).1.live =
      (match a.notificationId with
        | some t0 => cancelLive s.live t0
        | none => s.live)
    ∧ (updateAlarm s id u nowIso now (.ok t)).1.alarms.find? (fun x => x.id == id) =
      some { applyUpdates a u nowIso with notificationId := none } := by
  have hbid : ((applyUpdates a u nowIso).id == id) = true := by
    have := List.find?_some hfind
    simpa [applyUpdates] using this
  have hneg : ¬((applyUpdates a u nowIso).isEnabled = true) := by simp [hen]
  unfold updateAlarm at hok ⊢
  rw [hfind] at hok ⊢
  simp only [hns, if_true] at hok ⊢
  rw [if_neg hneg] at hok ⊢
  cases hst : replaceFirstById s.stored id
      { applyUpdates a u nowIso with notificationId := none } with
  | none =>
    rw [hst] at hok
    simp at hok
  | some stored1 => exact ⟨rfl, find?_replaceAlarm _ hfind hbid⟩

theorem mapSet_mem {m : List (String × String)} {k v : String} {p : String × String}
    (hp : p ∈ mapSet m k v) : p ∈ m ∨ p = (k, v) := by
  unfold mapSet at hp
  split at hp
  · rcases List.mem_map.mp hp with ⟨q, hq, hfq⟩
    by_cases hqk : (q.1 == k) = true
    · rw [if_pos hqk] at hfq
      exact Or.inr hfq.symm
    · rw [if_neg hqk] at hfq
      exact Or.inl (hfq ▸ hq)
  · rcases List.mem_append.mp hp with hq | hq
    · exact Or.inl hq
    · exact Or.inr (List.mem_singleton.mp hq)

theorem mapSet_key (m : List (String × String)) (k v : String) :
    (mapSet m k v).any (fun p => p.1 == k) = true := by
  unfold mapSet
  split
  · case isTrue hany =>
    rcases List.any_eq_true.mp hany with ⟨q, hq, hqk⟩
    refine List.any_eq_true.mpr ⟨(k, v), List.mem_map.mpr ⟨q, hq, by rw [if_pos hqk]⟩, by simp⟩
  · exact List.any_eq_true.mpr ⟨(k, v), List.mem_append_right _ (List.mem_singleton.mpr rfl),
      by simp⟩

theorem mapSet_any_preserve {m : List (String × String)} {k : String} (k2 v : String)
    (h : m.any (fun p => p.1 == k) = true) :
    (mapSet m k2 v).any (fun p => p.1 == k) = true := by
  unfold mapSet
  split
  · rcases List.any_eq_true.mp h with ⟨q, hq, hqk⟩
    by_cases hq2 : (q.1 == k2) = true
    · refine List.any_eq_true.mpr ⟨(k2, v), List.mem_map.mpr ⟨q, hq, by rw [if_pos hq2]⟩, ?_⟩
      simp only [beq_iff_eq] at hqk hq2 ⊢
      rw [← hq2, hqk]
    · exact List.any_eq_true.mpr ⟨q, List.mem_map.mpr ⟨q, hq, by rw [if_neg hq2]⟩, hqk⟩
  · rcases List.any_eq_true.mp h with ⟨q, hq, hqk⟩
    exact List.any_eq_true.mpr ⟨q, List.mem_append_left _ hq, hqk⟩

theorem rescheduleFold_sound (now : Nat) (notifier : Alarm → Except String String) :
    ∀ (L : List Alarm) (acc : List (String × String)) (p : String × String),
      p ∈ L.foldl (fun results alarm =>
        match scheduleAlarmCall alarm now (notifier alarm) with
        | .ok notificationId => mapSet results alarm.id notificationId
        | .error _ => results) acc →
      (∃ b ∈ L, b.id = p.1 ∧ scheduleAlarmCall b now (notifier b) = .ok p.2) ∨ p ∈ acc := by
  intro L
  induction L with
  | nil => exact fun acc p hp => Or.inr hp
  | cons b bs ih =>
    intro acc p hp
    rw [List.foldl_cons] at hp
    cases hsc : scheduleAlarmCall b now (notifier b) with
    | error e =>
      rw [hsc] at hp
      rcases ih _ p hp with ⟨b2, hb2, hid, hsc2⟩ | hacc
      · exact Or.inl ⟨b2, List.mem_cons_of_mem b hb2, hid, hsc2⟩
      · exact Or.inr hacc
    | ok tok =>
      rw [hsc] at hp
      rcases ih _ p hp with ⟨b2, hb2, hid, hsc2⟩ | hacc
      · exact Or.inl ⟨b2, List.mem_cons_of_mem b hb2, hid, hsc2⟩
      · rcases mapSet_mem hacc with hm | rfl
        · exact Or.inr hm
        · exact Or.inl ⟨b, List.mem_cons_self b bs, rfl, hsc⟩

theorem rescheduleFold_any_persist (now : Nat) (notifier : Alarm → Except String String)
    (k : String) :
    ∀ (L : List Alarm) (acc : List (String × String)),
      acc.any (fun p => p.1 == k) = true →
      (L.foldl (fun results alarm =>
        match scheduleAlarmCall alarm now (notifier alarm) with
        | .ok notificationId => mapSet results alarm.id notificationId
        | .error _ => results) acc).any (fun p => p.1 == k) = true := by
  intro L
  induction L with
  | nil => exact fun acc h => h
  | cons b bs ih =>
    intro acc h
    rw [List.foldl_cons]
    cases hsc : scheduleAlarmCall b now (notifier b) with
    | error e => exact ih _ h
    | ok tok => exact ih _ (mapSet_any_preserve _ _ h)

theorem rescheduleFold_complete (now : Nat) (notifier : Alarm → Except String String) :
    ∀ (L : List Alarm) (acc : List (String × String)) (b : Alarm), b ∈ L →
      ∀ tk, scheduleAlarmCall b now (notifier b) = .ok tk →
      (L.foldl (fun results alarm =>
        match scheduleAlarmCall alarm now (notifier alarm) with
        | .ok notificationId => mapSet results alarm.id notificationId
        | .error _ => results) acc).any (fun p => p.1 == b.id) = true := by
  intro L
  induction L with
  | nil => intro acc b hb; exact absurd hb (List.not_mem_nil b)
  | cons c cs ih =>
    intro acc b hb tk hsc
    rw [List.foldl_cons]
    rcases List.mem_cons.mp hb with rfl | hb2
    · cases hsc0 : scheduleAlarmCall b now (notifier b) with
      | error e =>
        rw [hsc] at hsc0
        exact absurd hsc0 (by simp)
      | ok tok2 =>
        exact rescheduleFold_any_persist now notifier b.id cs _ (mapSet_key acc b.id tok2)
    · cases hsc2 : scheduleAlarmCall c now (notifier c) with
      | error e => exact ih _ b hb2 tk hsc
      | ok tok2 => exact ih _ b hb2 tk hsc

/-- C1, counterexample: an enabled create whose Notifier `schedule` call fails
surfaces `Failed to schedule alarm notification`, but the alarm record is NOT
created or persisted: both the store and the context state stay empty, so the
claim that the record is still created and left disabled does not hold. -/
theorem addAlarm_failure_counterexample :
    (addAlarm emptyState sampleInput "alarm-1" "2025-10-20T10:00:00.000Z" 1760954400
        (.error "platform failure")).2 = .error "Failed to schedule alarm notification"
    ∧ (addAlarm emptyState sampleInput "alarm-1" "2025-10-20T10:00:00.000Z" 1760954400
        (.error "platform failure")).1.stored = []
    ∧ (addAlarm emptyState sampleInput "alarm-1" "2025-10-20T10:00:00.000Z" 1760954400
        (.error "platform failure")).1.alarms = [] := by
  refine ⟨rfl, rfl, rfl⟩

/-- C1, amended: for every create (`addAlarm`) whose input is enabled and whose
Notifier `schedule` call fails, the operation surfaces the scheduling error to
the caller and aborts entirely: the record is not persisted to the store, the
context alarm list and the live registrations are unchanged, and the context
error state is set — the data is dropped loudly, not silently, and no
`Disabled` record remains. -/
theorem addAlarm_failure_aborts (s : AppState) (input : AlarmInput)
    (freshId nowIso : String) (now : Nat) (e : String)
    (henabled : input.isEnabled = true) :
    addAlarm s input freshId nowIso now (.error e) =
      ({ s with lastError := some "Failed to add alarm" },
        .error "Failed to schedule alarm notification") := by
  unfold addAlarm
  simp only [show (mkAlarm input freshId nowIso).isEnabled = true from henabled,
    scheduleAlarmCall_error]
  rfl

/-- Witness for C1 at a concrete input (scenario: enabled 07:30 alarm,
platform failure). -/
theorem addAlarm_failure_aborts_witness :
    addAlarm emptyState sampleInput "alarm-1" "iso" 1760954400 (.error "platform failure") =
      ({ emptyState with lastError := some "Failed to add alarm" },
        .error "Failed to schedule alarm notification") :=
  addAlarm_failure_aborts emptyState sampleInput "alarm-1" "iso" 1760954400
    "platform failure" rfl

/-- C2: with the default 30-second tolerance, a fire callback arriving more
than the tolerance before the expected trigger instant carried in its payload
(`data.scheduledAt`, falling back to `trigger.date`) is treated as spurious:
the notification handler returns `false` (nothing is shown or surfaced) and
performs no state change, so the alarm remains armed with the same pending
trigger token it had before the callback. -/
theorem early_fire_ignored (s : AppState) (dataScheduledAt triggerDate : Option Nat)
    (now scheduledTime : Nat)
    (hs : dataScheduledAt.orElse (fun _ => triggerDate) = some scheduledTime)
    (hearly : (now : Int) + TOLERANCE_SECONDS < (scheduledTime : Int)) :
    handleNotificationStep s dataScheduledAt triggerDate now = (s, false) := by
  unfold handleNotificationStep handleNotificationShould
  unfold TOLERANCE_SECONDS at hearly ⊢
  rw [hs]
  dsimp only []
  rw [if_pos (by omega)]

/-- Witness for C2: the spec scenario of a callback 5 minutes (300 s) before
the expected trigger. -/
theorem early_fire_ignored_witness :
    handleNotificationStep armedState (some 1760954700) none 1760954400 =
      (armedState, false) :=
  early_fire_ignored armedState (some 1760954700) none 1760954400 1760954700 rfl (by decide)

/-- C3, counterexample: starting from a state satisfying the
token-iff-enabled invariant, the completed operation
`updateAlarm("alarm-1", { notificationId: undefined })` succeeds and leaves an
enabled alarm with no pending trigger, so the invariant does not survive every
completed `updateAlarm`. -/
theorem updateAlarm_token_invariant_counterexample :
    TokenIffEnabled armedState.alarms
    ∧ (updateAlarm armedState "alarm-1" tokenOnlyClear "iso2" 1760954400 (.ok "n2")).2.2 = .ok ()
    ∧ ¬ TokenIffEnabled
        (updateAlarm armedState "alarm-1" tokenOnlyClear "iso2" 1760954400 (.ok "n2")).1.alarms :=
  ⟨by decide, rfl, by decide⟩

/-- C3, amended: starting from any state satisfying the token-iff-enabled
invariant (`pendingTrigger.isSome ⟺ enabled`), the invariant is preserved by
every completed `addAlarm`, by every `updateAlarm` whose update either omits
the `notificationId` key or touches one of the rescheduling keys
(`time`/`repeats`/`isEnabled`/`soundUri`), by every `toggleAlarm`, by the
snooze handler whenever the targeted alarm is enabled, and by the dismiss
handler unconditionally. -/
theorem lifecycle_ops_preserve_token_invariant (s : AppState)
    (hinv : TokenIffEnabled s.alarms) :
    (∀ input freshId nowIso now notifier,
        TokenIffEnabled (addAlarm s input freshId nowIso now notifier).1.alarms)
    ∧ (∀ id u nowIso now notifier,
        u.notificationId = none ∨ needsReschedule u = true →
        TokenIffEnabled (updateAlarm s id u nowIso now notifier).1.alarms)
    ∧ (∀ id nowIso now notifier,
        TokenIffEnabled (toggleAlarm s id nowIso now notifier).1.alarms)
    ∧ (∀ alarmId nowIso now notifier,
        (∀ a ∈ s.alarms, a.id = alarmId → a.isEnabled = true) →
        TokenIffEnabled (onSnooze s alarmId nowIso now notifier).alarms)
    ∧ (∀ alarmId nowIso now notifier,
        TokenIffEnabled (onDismiss s alarmId nowIso now notifier).alarms) := by
  refine ⟨fun input freshId nowIso now notifier =>
      addAlarm_preserves_inv s input freshId nowIso now notifier hinv,
    fun id u nowIso now notifier hcase => ?_,
    fun id nowIso now notifier => toggleAlarm_preserves_inv s id nowIso now notifier hinv,
    fun alarmId nowIso now notifier henall =>
      onSnooze_preserves_inv s alarmId nowIso now notifier hinv henall,
    fun alarmId nowIso now notifier =>
      onDismiss_preserves_inv s alarmId nowIso now notifier hinv⟩
  by_cases hns : needsReschedule u = true
  · exact updateAlarm_preserves_inv s id u nowIso now notifier hinv (Or.inl hns)
  · rcases hcase with hnid | htrue
    · refine updateAlarm_preserves_inv s id u nowIso now notifier hinv (Or.inr ?_)
      intro a hfind
      have hne : u.isEnabled = none := by
        cases hui : u.isEnabled
        · rfl
        · exfalso
          exact hns (by simp [needsReschedule, hui])
      have ha := hinv a (List.mem_of_find?_eq_some hfind)
      simp [applyUpdates, hnid, hne, ha]
    · exact absurd htrue hns

/-- Witness for C3 (amended): the dismiss handler run on the armed sample
state keeps the invariant. -/
theorem lifecycle_ops_preserve_token_invariant_witness :
    TokenIffEnabled (onDismiss armedState "alarm-1" "iso2" 1760954400 (.ok "n2")).alarms :=
  (lifecycle_ops_preserve_token_invariant armedState (by decide)).2.2.2.2
    "alarm-1" "iso2" 1760954400 (.ok "n2")

/-- C4: calling edit (`updateAlarm`) twice in a row on the same alarm, with
both edits carrying a rescheduling key, both completing, and the second edit
leaving the alarm enabled, results in exactly one live Notifier registration
for that alarm — the new token — and the token produced by the first edit has
been cancelled: each rescheduling edit cancels the current pending trigger
(when present) before registering the new one. -/
theorem double_edit_one_live_token (s : AppState) (id : String) (a : Alarm)
    (u1 u2 : AlarmUpdate) (iso1 iso2 : String) (now1 now2 : Nat) (t1 t2 : String)
    (hfind : s.alarms.find? (fun x => x.id == id) = some a)
    (hlm : liveFor s.live id = (match a.notificationId with
      | some t0 => [(t0, id)]
      | none => []))
    (hns1 : needsReschedule u1 = true) (hns2 : needsReschedule u2 = true)
    (hok1 : (updateAlarm s id u1 iso1 now1 (.ok t1)).2.2 = .ok ())
    (hok2 : (updateAlarm (updateAlarm s id u1 iso1 now1 (.ok t1)).1 id u2 iso2 now2
        (.ok t2)).2.2 = .ok ())
    (hen2 : u2.isEnabled.getD (applyUpdates a u1 iso1).isEnabled = true)
    (hfresh1 : ∀ p ∈ s.live, p.1 ≠ t1)
    (hne : t1 ≠ t2) :
    liveFor (updateAlarm (updateAlarm s id u1 iso1 now1 (.ok t1)).1 id u2 iso2 now2
        (.ok t2)).1.live id = [(t2, id)]
    ∧ ∀ p ∈ (updateAlarm (updateAlarm s id u1 iso1 now1 (.ok t1)).1 id u2 iso2 now2
        (.ok t2)).1.live, p.1 ≠ t1 := by
  have hbase : liveFor (match a.notificationId with
      | some t0 => cancelLive s.live t0
      | none => s.live) id = [] := by
    cases hcn : a.notificationId with
    | none =>
      rw [hcn] at hlm
      exact hlm
    | some t0 =>
      rw [hcn] at hlm
      rw [liveFor_cancelLive, hlm]
      simp [cancelLive]
  cases hen1 : (applyUpdates a u1 iso1).isEnabled with
  | true =>
    obtain ⟨hlive1, hfind1⟩ :=
      updateAlarm_resched_ok_enabled s id u1 iso1 now1 t1 a hfind hns1 hen1 hok1
    have hen2x : (applyUpdates { applyUpdates a u1 iso1 with notificationId := some t1 }
        u2 iso2).isEnabled = true := hen2
    obtain ⟨hlive2, hfind2⟩ :=
      updateAlarm_resched_ok_enabled (updateAlarm s id u1 iso1 now1 (.ok t1)).1 id u2 iso2
        now2 t2 _ hfind1 hns2 hen2x hok2
    constructor
    · rw [hlive2]
      dsimp only []
      rw [liveFor_append, liveFor_cancelLive, hlive1, liveFor_append, hbase]
      simp [liveFor, cancelLive]
    · intro p hp
      rw [hlive2] at hp
      dsimp only [] at hp
      rcases List.mem_append.mp hp with hp1 | hp2
      · exact mem_cancelLive_ne hp1
      · rcases List.mem_singleton.mp hp2 with rfl
        exact fun h => hne h.symm
  | false =>
    obtain ⟨hlive1, hfind1⟩ :=
      updateAlarm_resched_ok_disabled s id u1 iso1 now1 t1 a hfind hns1 hen1 hok1
    have hen2x : (applyUpdates { applyUpdates a u1 iso1 with notificationId := none }
        u2 iso2).isEnabled = true := hen2
    obtain ⟨hlive2, hfind2⟩ :=
      updateAlarm_resched_ok_enabled (updateAlarm s id u1 iso1 now1 (.ok t1)).1 id u2 iso2
        now2 t2 _ hfind1 hns2 hen2x hok2
    constructor
    · rw [hlive2]
      dsimp only []
      rw [liveFor_append, hlive1, hbase]
      simp [liveFor]
    · intro p hp
      rw [hlive2] at hp
      dsimp only [] at hp
      rcases List.mem_append.mp hp with hp1 | hp2
      · rw [hlive1] at hp1
        have hps : p ∈ s.live := by
          cases hcn : a.notificationId with
          | none =>
            rw [hcn] at hp1
            exact hp1
          | some t0 =>
            rw [hcn] at hp1
            exact mem_of_cancelLive hp1
        exact hfresh1 p hps
      · rcases List.mem_singleton.mp hp2 with rfl
        exact fun h => hne h.symm

/-- Witness for C4: two concrete time edits on the armed sample alarm leave
exactly the second token live. -/
theorem double_edit_one_live_token_witness :
    liveFor (updateAlarm (updateAlarm armedState "alarm-1" editTime0800 "iso-b" 1760954400
        (.ok "n2")).1 "alarm-1" editTime0900 "iso-c" 1760954400 (.ok "n3")).1.live "alarm-1"
      = [("n3", "alarm-1")]
    ∧ ∀ p ∈ (updateAlarm (updateAlarm armedState "alarm-1" editTime0800 "iso-b" 1760954400
        (.ok "n2")).1 "alarm-1" editTime0900 "iso-c" 1760954400 (.ok "n3")).1.live,
        p.1 ≠ "n2" :=
  double_edit_one_live_token armedState "alarm-1" armedAlarm editTime0800 editTime0900
    "iso-b" "iso-c" 1760954400 1760954400 "n2" "n3" rfl rfl rfl rfl (by decide) (by decide)
    rfl (by decide) (by decide)

/-- C5, counterexample: an update that changes only `snoozeDuration`
(10 → 5 minutes) on an armed alarm completes without performing any
cancel/schedule action and without touching the live registration, so the
cancel-old/schedule-new path is not taken for snooze-duration changes. -/
theorem snoozeDuration_update_counterexample :
    armedAlarm.snoozeDuration = 10
    ∧ (updateAlarm armedState "alarm-1" snoozeOnlyUpdate "iso2" 1760954400 (.ok "n2")).2.2
        = .ok ()
    ∧ (updateAlarm armedState "alarm-1" snoozeOnlyUpdate "iso2" 1760954400 (.ok "n2")).2.1 = []
    ∧ (updateAlarm armedState "alarm-1" snoozeOnlyUpdate "iso2" 1760954400 (.ok "n2")).1.live
        = armedState.live :=
  ⟨rfl, rfl, rfl, rfl⟩

/-- C5, amended: `updateAlarm` takes the cancel-old/schedule-new path exactly
when the update object carries one of the keys `time`, `repeats`, `isEnabled`
or `soundUri` (key presence, not value change).  When none of these keys is
present the Notifier is not consulted and the live registration is untouched;
when one is present and a pending trigger exists, the first action performed
is the cancellation of that trigger, before any new registration. -/
theorem updateAlarm_reschedule_iff_keys (s : AppState) (id : String) (u : AlarmUpdate)
    (nowIso : String) (now : Nat) (notifier : Except String String) (a : Alarm) (t : String)
    (hfind : s.alarms.find? (fun x => x.id == id) = some a)
    (htok : a.notificationId = some t) :
    ((u.time.isSome || u.repeats.isSome || u.isEnabled.isSome || u.soundUri.isSome) = false →
      (updateAlarm s id u nowIso now notifier).2.1 = []
      ∧ (updateAlarm s id u nowIso now notifier).1.live = s.live)
    ∧ ((u.time.isSome || u.repeats.isSome || u.isEnabled.isSome || u.soundUri.isSome) = true →
      ∃ rest, (updateAlarm s id u nowIso now notifier).2.1 = SchedAction.cancel t :: rest) := by
  constructor
  · intro hkeys
    have hns : needsReschedule u = false := hkeys
    unfold updateAlarm
    rw [hfind]
    simp only [hns, Bool.false_eq_true, if_false]
    split
    · exact ⟨rfl, rfl⟩
    · exact ⟨rfl, rfl⟩
  · intro hkeys
    have hns : needsReschedule u = true := hkeys
    unfold updateAlarm
    rw [hfind]
    simp only [hns, if_true, htok]
    split
    · split
      · exact ⟨[], rfl⟩
      · case h_2 token heq =>
        split
        · exact ⟨[.schedule token], rfl⟩
        · exact ⟨[.schedule token], rfl⟩
    · split
      · exact ⟨[], rfl⟩
      · exact ⟨[], rfl⟩

/-- Witness for C5 (amended): the concrete snooze-duration-only update leaves
the registration untouched. -/
theorem updateAlarm_reschedule_iff_keys_witness :
    (updateAlarm armedState "alarm-1" snoozeOnlyUpdate "iso3" 1760954400 (.ok "n4")).2.1 = []
    ∧ (updateAlarm armedState "alarm-1" snoozeOnlyUpdate "iso3" 1760954400 (.ok "n4")).1.live
        = armedState.live :=
  (updateAlarm_reschedule_iff_keys armedState "alarm-1" snoozeOnlyUpdate "iso3" 1760954400
    (.ok "n4") armedAlarm "n1" rfl rfl).1 rfl

/-- C6: for every alarm whose time string parses to a valid hour/minute and
whose repeat set is empty, and for every `now`, the computed next trigger is
strictly after `now` and at most 24 hours after `now`; it is today's date at
the alarm time when that instant is strictly after `now`, and otherwise the
same time of day one day later. -/
theorem nonRepeating_next_trigger (a : Alarm) (h m now : Nat)
    (hp : parseTimeString a.time = some (h, m)) (hrep : a.repeats = []) :
    ∃ r, getNextAlarmTime a now = some r ∧ now < r ∧ r - now ≤ 86400 ∧
      r = if now < setHMS0 now h m then setHMS0 now h m else setHMS0 now h m + secPerDay := by
  obtain ⟨hh, hm2⟩ := parseTimeChars_bounds hp
  unfold getNextAlarmTime
  rw [hp, hrep]
  simp only [List.isEmpty_nil, if_true]
  by_cases hlt : now < setHMS0 now h m
  · refine ⟨setHMS0 now h m, by rw [if_pos hlt], hlt, ?_, by rw [if_pos hlt]⟩
    unfold setHMS0 secPerDay at *
    omega
  · refine ⟨setHMS0 now h m + secPerDay, by rw [if_neg hlt], ?_, ?_, by rw [if_neg hlt]⟩ <;>
    · unfold setHMS0 secPerDay at *
      omega

/-- Witness for C6: spec scenario 2, `07:30` one-time alarm at
2025-10-23T07:00 (instant 1761202800). -/
theorem nonRepeating_next_trigger_witness :
    ∃ r, getNextAlarmTime alarmDaily0730 1761202800 = some r ∧ 1761202800 < r ∧
      r - 1761202800 ≤ 86400 ∧
      r = if 1761202800 < setHMS0 1761202800 7 30 then setHMS0 1761202800 7 30
          else setHMS0 1761202800 7 30 + secPerDay :=
  nonRepeating_next_trigger alarmDaily0730 7 30 1761202800 (by decide) rfl

/-- C7: for every alarm whose time string parses to a valid hour/minute and
whose repeat set is non-empty, and for every `now`, the weekday of the
computed next trigger is a member of the repeat set. -/
theorem repeating_next_trigger_weekday (a : Alarm) (h m now : Nat)
    (hp : parseTimeString a.time = some (h, m)) (hrep : a.repeats ≠ []) :
    ∃ r, getNextAlarmTime a now = some r ∧ numberToWeekday (getDay r) ∈ a.repeats := by
  obtain ⟨hh, hm2⟩ := parseTimeChars_bounds hp
  obtain ⟨d, ds, hds⟩ : ∃ d ds, a.repeats = d :: ds := by
    cases hds : a.repeats with
    | nil => exact absurd hds hrep
    | cons d ds => exact ⟨d, ds, rfl⟩
  have hempty : a.repeats.isEmpty = false := by rw [hds]; rfl
  unfold getNextAlarmTime
  rw [hp]
  simp only [hempty, Bool.false_eq_true, if_false]
  by_cases hcond : (a.repeats.contains (numberToWeekday (getDay now))
      && decide (now < setHMS0 now h m)) = true
  · rw [if_pos hcond]
    rw [Bool.and_eq_true] at hcond
    refine ⟨setHMS0 now h m, rfl, ?_⟩
    rw [getDay_setHMS0 now h m hh hm2]
    exact contains_mem hcond.1
  · rw [if_neg hcond]
    have hsome : (nextOccurrenceLoop (fun d0 => nextWeekdayOccurrenceAt d0 h m now)
        a.repeats none).isSome = true := by
      rw [hds]
      rw [show nextOccurrenceLoop (fun d0 => nextWeekdayOccurrenceAt d0 h m now) (d :: ds) none =
        nextOccurrenceLoop (fun d0 => nextWeekdayOccurrenceAt d0 h m now) ds
          (some (nextWeekdayOccurrenceAt d h m now)) from rfl]
      exact nextOccurrenceLoop_isSome _ ds _ rfl
    obtain ⟨r, hr⟩ := Option.isSome_iff_exists.mp hsome
    refine ⟨r, hr, ?_⟩
    rcases nextOccurrenceLoop_mem _ a.repeats none r hr with ⟨d0, hd0, rfl⟩ | habs
    · rw [getDay_nextWeekdayOccurrenceAt d0 h m now hh hm2,
        numberToWeekday_weekdayToNumber d0]
      exact hd0
    · exact absurd habs (by simp)

/-- Witness for C7: spec scenario 4, `09:00` on Mon/Wed at Monday
2025-10-20T08:00 (instant 1760947200). -/
theorem repeating_next_trigger_weekday_witness :
    ∃ r, getNextAlarmTime alarmMonWed0900 1760947200 = some r ∧
      numberToWeekday (getDay r) ∈ alarmMonWed0900.repeats :=
  repeating_next_trigger_weekday alarmMonWed0900 9 0 1760947200 (by decide) (by decide)

/-- C8: in the repeating computation, a repeat day equal to today's weekday
whose alarm time has already passed today contributes an occurrence exactly 7
days out, never 0 days. -/
theorem sameDay_passed_week_out (day : WeekDay) (h m now : Nat)
    (hday : weekdayToNumber day = getDay now) (hpassed : setHMS0 now h m ≤ now) :
    nextWeekdayOccurrenceAt day h m now = setHMS0 now h m + 7 * secPerDay := by
  unfold nextWeekdayOccurrenceAt
  simp only []
  rw [if_pos hday, if_neg (Nat.not_lt.mpr hpassed)]
  unfold mkDayTime setHMS0 secPerDay
  ring

/-- Witness for C8: spec scenario 3, `09:00` Monday alarm at Monday
2025-10-20T10:00 (instant 1760954400); the next trigger is Monday
2025-10-27T09:00 (instant 1761555600). -/
theorem sameDay_passed_week_out_witness :
    nextWeekdayOccurrenceAt .Mon 9 0 1760954400 = setHMS0 1760954400 9 0 + 7 * secPerDay
    ∧ getNextAlarmTime alarmMonday0900 1760954400 = some 1761555600 :=
  ⟨sameDay_passed_week_out .Mon 9 0 1760954400 (by decide) (by decide), by decide⟩

/-- C9: `rescheduleAllAlarms` attempts to schedule every enabled alarm and
only those: every entry of the returned map comes from an enabled alarm whose
scheduling succeeded, and every enabled alarm whose scheduling succeeded has
its id in the map — so an individual failure is excluded from the result while
the loop continues, and the operation (a total function) never aborts because
one alarm failed. -/
theorem rescheduleAll_isolates_failures (alarms : List Alarm) (now : Nat)
    (notifier : Alarm → Except String String) :
    (∀ p ∈ rescheduleAllAlarms alarms now notifier,
      ∃ b ∈ alarms, b.isEnabled = true ∧ b.id = p.1 ∧
        scheduleAlarmCall b now (notifier b) = .ok p.2)
    ∧ (∀ b ∈ alarms, b.isEnabled = true →
      ∀ tk, scheduleAlarmCall b now (notifier b) = .ok tk →
        (rescheduleAllAlarms alarms now notifier).any (fun p => p.1 == b.id) = true) := by
  constructor
  · intro p hp
    unfold rescheduleAllAlarms at hp
    rcases rescheduleFold_sound now notifier _ [] p hp with ⟨b, hb, hid, hsc⟩ | habs
    · have hbm := List.mem_filter.mp hb
      exact ⟨b, hbm.1, by simpa using hbm.2, hid, hsc⟩
    · simp at habs
  · intro b hb hen tk hsc
    unfold rescheduleAllAlarms
    refine rescheduleFold_complete now notifier _ [] b ?_ tk hsc
    exact List.mem_filter.mpr ⟨hb, by simp [hen]⟩

/-- Witness for C9: in a concrete batch with one failing alarm, the
successful enabled alarm is present in the result map. -/
theorem rescheduleAll_isolates_failures_witness :
    (rescheduleAllAlarms [demoOk, demoBad, demoDisabled] 1760954400 demoNotifier).any
      (fun p => p.1 == demoOk.id) = true :=
  (rescheduleAll_isolates_failures [demoOk, demoBad, demoDisabled] 1760954400 demoNotifier).2
    demoOk (by decide) rfl ("token-" ++ demoOk.id) rfl

/-- C10: `parseTimeString` (hence `isValidTimeString`) rejects an input only
when a colon-split component's leading numeric prefix parses to NaN or lies
outside hour 0–23 / minute 0–59; it does not enforce the `HH:mm` shape, and
the non-`HH:mm` inputs `"7:30abc"` and `"07:3x:59"` are accepted as valid. -/
theorem parseTime_shape_leniency :
    (∀ cs : List Char, (parseTimeChars cs).isSome = true ↔
      ∃ hours minutes : Int,
        jsParseInt ((splitOnColon cs).headD []) = some hours ∧
        (splitOnColon cs)[1]?.bind jsParseInt = some minutes ∧
        0 ≤ hours ∧ hours ≤ 23 ∧ 0 ≤ minutes ∧ minutes ≤ 59)
    ∧ isValidTimeString "7:30abc" = true ∧ isHHmmShape "7:30abc" = false
    ∧ isValidTimeString "07:3x:59" = true ∧ isHHmmShape "07:3x:59" = false := by
  refine ⟨fun cs => ?_, by decide, by decide, by decide, by decide⟩
  rw [parseTimeChars_eq cs]
  rcases hh : jsParseInt ((splitOnColon cs).headD []) with _ | hours
  · simp [hh]
  · rcases hm : (splitOnColon cs)[1]?.bind jsParseInt with _ | minutes
    · simp [hh, hm]
    · simp only [hh, hm]
      constructor
      · intro hsome
        split at hsome
        · simp at hsome
        · rename_i hcond
          simp only [Bool.or_eq_true, decide_eq_true_eq, not_or] at hcond
          exact ⟨hours, minutes, rfl, rfl, by omega, by omega, by omega, by omega⟩
      · rintro ⟨h2, m2, hh2, hm2, b1, b2, b3, b4⟩
        obtain rfl : hours = h2 := by injection hh2
        obtain rfl : minutes = m2 := by injection hm2
        rw [if_neg (by simp only [Bool.or_eq_true, decide_eq_true_eq, not_or]; omega)]
        rfl

end TaskAlarm
